import Mathlib

/-!
Verification model of the Financial Expense Tracker
(`src/financial_expenses.py.py`).

Shallow embedding conventions:
* An expense record is the row `[date, amount, category, note]` of the CSV
  store.  Monetary amounts are modelled as exact rationals (`ℚ`): the Python
  program stores the textual form and converts with `float`; the claims under
  verification never depend on binary floating-point rounding, so the parsed
  decimal value is represented exactly.
* Python's `float(s)` string grammar (sign, digit groups with underscores,
  optional fraction and exponent, `inf`/`infinity`/`nan`, surrounding
  whitespace) is modelled by `pyFloat?`; `is_valid_amount` is its defined-ness
  test, exactly as the source wraps `float` in `try/except ValueError`.
* `datetime.strptime(s, "%Y-%m-%d %H:%M")` is modelled by `parseDT?`:
  1-4 digit year, 1-2 digit month/day/hour/minute separated by the literal
  `-`, space and `:` characters, followed by the range validation the
  `datetime` constructor performs (month 1-12, day within the month
  including leap years, hour ≤ 23, minute ≤ 59, year 1-9999).
* Python `list.sort` (Timsort, a stable sort) is modelled by `List.mergeSort`,
  which is extensionally the unique stable sort for a total preorder.
-/

namespace ExpenseTracker

/-- One row of the CSV store: `[date, amount, category, note]`
(source reads rows with `csv.reader`; the amount is modelled as its parsed
decimal value, see the header comment). -/
structure Record where
  date : String
  amount : ℚ
  category : String
  note : String
deriving DecidableEq, Repr

/-! ### Model of Python `float(s)` -/

/-- Result of Python `float` on a string: a finite value, a signed infinity,
or a NaN. -/
inductive PyFloat where
  | finite (val : ℚ)
  | infinite (negative : Bool)
  | nan
deriving DecidableEq, Repr

/-- Characters Python's float parser strips around the number
(`str.isspace` characters, ASCII part). -/
def pyWs (c : Char) : Bool :=
  c = ' ' || c = '\t' || c = '\n' || c = '\r' || c = '\x0b' || c = '\x0c'

/-- Strip leading and trailing whitespace. -/
def trimWs (cs : List Char) : List Char :=
  ((cs.dropWhile pyWs).reverse.dropWhile pyWs).reverse

/-- Tail of a digit group: `(digit | '_' digit)*` — underscores are legal only
between digits (Python numeric-literal rule used by `float`). -/
def digitGroupTail : List Char → Bool
  | [] => true
  | '_' :: c :: cs => c.isDigit && digitGroupTail cs
  | c :: cs => c.isDigit && digitGroupTail cs

/-- A digit group: one digit, then digits with optional single underscores
between them. -/
def isDigitGroup : List Char → Bool
  | [] => false
  | c :: cs => c.isDigit && digitGroupTail cs

/-- Numeric value of a digit group (underscores ignored). -/
def groupVal (cs : List Char) : Nat :=
  (cs.filter (fun c => c ≠ '_')).foldl (fun n c => 10 * n + (c.toNat - 48)) 0

/-- Number of actual digits in a digit group (underscores ignored). -/
def groupLen (cs : List Char) : Nat :=
  (cs.filter (fun c => c ≠ '_')).length

/-- Split a list at the first character satisfying `p`; `none` if absent.
The matched character itself is dropped. -/
def splitFirst (p : Char → Bool) : List Char → Option (List Char × List Char)
  | [] => none
  | x :: xs =>
    if p x then some ([], xs)
    else (splitFirst p xs).map (fun r => (x :: r.1, r.2))

/-- Significand grammar of `float`: `G | G '.' | '.' G | G '.' G` for digit
groups `G`.  Returns the digits read as one integer together with the number
of fraction digits, so the value is `v / 10 ^ scale` (kept in `Nat` form so
that concrete runs reduce inside the kernel). -/
def parseSig (cs : List Char) : Option (Nat × Nat) :=
  match splitFirst (fun c => c = '.') cs with
  | none => if isDigitGroup cs then some (groupVal cs, 0) else none
  | some (ip, fp) =>
    if (ip.isEmpty || isDigitGroup ip) && (fp.isEmpty || isDigitGroup fp)
        && !(ip.isEmpty && fp.isEmpty) then
      some (groupVal ip * 10 ^ groupLen fp + groupVal fp, groupLen fp)
    else none

/-- Exponent grammar: optional sign then a digit group. -/
def parseExp (cs : List Char) : Option Int :=
  match cs with
  | '+' :: rest => if isDigitGroup rest then some (groupVal rest) else none
  | '-' :: rest => if isDigitGroup rest then some (-(groupVal rest : Int)) else none
  | _ => if isDigitGroup cs then some (groupVal cs) else none

/-- Numeric part of `float` (no sign, no `inf`/`nan`): significand with
optional `e`/`E` exponent. -/
def parseNumeric (cs : List Char) : Option ℚ :=
  match splitFirst (fun c => c = 'e' || c = 'E') cs with
  | none => (parseSig cs).map (fun sg => mkRat sg.1 (10 ^ sg.2))
  | some (mant, ex) =>
    match parseSig mant, parseExp ex with
    | some sg, some e =>
      if 0 ≤ e then some (mkRat (sg.1 * 10 ^ e.toNat) (10 ^ sg.2))
      else some (mkRat sg.1 (10 ^ (sg.2 + (-e).toNat)))
    | _, _ => none

/-- Unsigned payload of `float`: `inf`, `infinity`, `nan` (case-insensitive)
or a numeric literal. -/
def parseUnsigned (cs : List Char) : Option PyFloat :=
  let low := cs.map Char.toLower
  if low = "inf".data || low = "infinity".data then some (.infinite false)
  else if low = "nan".data then some .nan
  else (parseNumeric cs).map .finite

/-- Negate a Python float value (applies a leading `-` sign).  The finite
case negates the numerator, which is exactly `-q` but in a form the kernel
evaluates. -/
def PyFloat.neg : PyFloat → PyFloat
  | .finite q => .finite (mkRat (-q.num) q.den)
  | .infinite b => .infinite (!b)
  | .nan => .nan

/-- Model of Python `float(s)` on strings: `none` exactly when `float`
raises `ValueError`. -/
def pyFloat? (s : String) : Option PyFloat :=
  match trimWs s.data with
  | '+' :: rest => parseUnsigned rest
  | '-' :: rest => (parseUnsigned rest).map PyFloat.neg
  | cs => parseUnsigned cs

/-- Source `is_valid_amount`: `float(amount)` succeeds (no `ValueError`). -/
def is_valid_amount (amount : String) : Bool :=
  (pyFloat? amount).isSome

/-- The finite rational value of `float(s)`, when `s` parses to a finite
float. -/
def pyFloatFin? (s : String) : Option ℚ :=
  match pyFloat? s with
  | some (.finite q) => some q
  | _ => none

/-! ### `financial_feedback` -/

/-- Two-decimal rendering of a nonnegative rational `q`, modelling the
`:.2f` format (rounding idealized as exact round-half-up; no claim depends
on the rounding mode of the binary-float formatter).  The hundredths count
is `⌊q * 100 + 1/2⌋ = (200 * num + den) / (2 * den)`, written over `Nat` so
it evaluates in the kernel. -/
def fmt2abs (q : ℚ) : String :=
  let m : Nat := (200 * q.num + (q.den : Int)).toNat / (2 * q.den)
  toString (m / 100) ++ "." ++ (if m % 100 < 10 then "0" else "") ++ toString (m % 100)

/-- Two-decimal rendering of a rational (`:.2f` format). -/
def fmt2 (q : ℚ) : String :=
  if q < 0 then "-" ++ fmt2abs (-q) else fmt2abs q

/-- Message returned when `total == 0`. -/
def noExpensesMsg : String :=
  "No expenses recorded. Start tracking to understand your habits."

/-- Tier message for `total < 1000`. -/
def lowSpendMsg : String :=
  "You\x27re doing great! Keep up the low spending habits."

/-- Tier message for `1000 ≤ total < 5000`. -/
def fairlyWellMsg : String :=
  "You\x27re managing fairly well, but review any non-essentials."

/-- Tier message for `5000 ≤ total < 10000`. -/
def strictBudgetMsg : String :=
  "Consider budgeting more strictly and cutting excesses."

/-- Tier message for `total ≥ 10000`. -/
def highSpendingMsg : String :=
  "Warning: High spending! Analyze where most of your money is going."

/-- Budget clause appended when `total > budget`. -/
def exceededBudgetMsg (budget : ℚ) : String :=
  " You have exceeded your budget of R" ++ fmt2 budget ++ ". Consider cutting back next month."

/-- Budget clause appended when `total ≤ budget`. -/
def withinBudgetMsg (budget : ℚ) : String :=
  " You are within your budget of R" ++ fmt2 budget ++ ". Well done!"

/-- Source `financial_feedback(total, budget=None)`.  The Python guard
`if budget:` is truthiness: it fires only when `budget` is present *and*
nonzero. -/
def financial_feedback (total : ℚ) (budget : Option ℚ := none) : String :=
  if total = 0 then noExpensesMsg
  else
    let feedback :=
      if total < 1000 then lowSpendMsg
      else if total < 5000 then fairlyWellMsg
      else if total < 10000 then strictBudgetMsg
      else highSpendingMsg
    match budget with
    | some b =>
      if b ≠ 0 then
        if total > b then feedback ++ exceededBudgetMsg b
        else feedback ++ withinBudgetMsg b
      else feedback
    | none => feedback

/-! ### Percent-of-salary block (inlined twice in `main`) -/

/-- Warning of the View Total branch when over 70% of income is spent. -/
def overSpendWarnTotal : String :=
  "Over 70% of your income spent. Consider adjusting your expenses."

/-- Reassurance of the View Total branch. -/
def safeRangeMsgTotal : String :=
  "You\x27re within a safe spending range."

/-- Warning of the Financial Management Report branch. -/
def overSpendWarnReport : String :=
  "Spending exceeds 70% of income. Consider budgeting more strictly."

/-- Reassurance of the Financial Management Report branch. -/
def safeRangeMsgReport : String :=
  "You\x27re within a responsible range."

/-- View Total branch, salary block: guarded by the truthiness of
`st.session_state.salary` (`None` or `0` skips the block entirely, so the
division `total / salary` is never attempted there); otherwise computes
`percent_used = total / salary * 100` and picks the warning exactly when it
exceeds 70. -/
def viewTotalUsage (salary : Option ℚ) (total : ℚ) : Option (ℚ × String) :=
  match salary with
  | none => none
  | some s =>
    if s = 0 then none
    else
      let percent_used := total / s * 100
      some (percent_used,
        if percent_used > 70 then overSpendWarnTotal else safeRangeMsgTotal)

/-- Financial Management Report branch, salary block (same guard and
percentage, different message strings). -/
def reportUsage (salary : Option ℚ) (total : ℚ) : Option (ℚ × String) :=
  match salary with
  | none => none
  | some s =>
    if s = 0 then none
    else
      let percent_used := total / s * 100
      some (percent_used,
        if percent_used > 70 then overSpendWarnReport else safeRangeMsgReport)

/-! ### Store mutations: edit and delete -/

/-- Edit Expense branch: on "Save Changes", if `is_valid_amount(new_amount)`
then `expenses[idx] = [date, float(new_amount), new_category, new_note]`
(the original `date` is kept) and the whole list is written back; otherwise
nothing is written and the store keeps its previous contents.  The result is
the persisted store after the interaction.  (A new amount parsing to
`inf`/`nan` has no rational value and is outside this model; see
`pyFloatFin?`.) -/
def editExpense (expenses : List Record) (idx : Nat)
    (newAmount newCategory newNote : String) : List Record :=
  if is_valid_amount newAmount then
    match expenses[idx]?, pyFloatFin? newAmount with
    | some r, some q =>
      expenses.set idx { date := r.date, amount := q, category := newCategory, note := newNote }
    | _, _ => expenses
  else expenses

/-- Delete Expense branch: `expenses.pop(idx)` followed by
`write_expenses(expenses)` — the persisted store is the list with the
element at `idx` removed. -/
def deleteExpense (expenses : List Record) (idx : Nat) : List Record :=
  expenses.eraseIdx idx

/-! ### Filters -/

/-- ASCII model of Python `str.lower` (categories in the claims are ASCII). -/
def strLower (s : String) : String :=
  ⟨s.data.map Char.toLower⟩

/-- Filter Expenses branch, Category:
`[e for e in expenses if e[2].lower() == category.lower()]`. -/
def filterByCategory (expenses : List Record) (category : String) : List Record :=
  expenses.filter (fun e => decide (strLower e.category = strLower category))

/-- Python `s.startswith(p)` on character lists. -/
def startsWith : List Char → List Char → Bool
  | [], _ => true
  | _ :: _, [] => false
  | c :: cs, d :: ds => decide (c = d) && startsWith cs ds

/-- Filter Expenses branch, Date:
`[e for e in expenses if e[0].startswith(date)]`. -/
def filterByDate (expenses : List Record) (date : String) : List Record :=
  expenses.filter (fun e => startsWith date.data e.date.data)

/-! ### Model of `datetime.strptime(s, "%Y-%m-%d %H:%M")` -/

/-- A parsed timestamp (minute precision, no timezone). -/
structure DT where
  year : Nat
  month : Nat
  day : Nat
  hour : Nat
  minute : Nat
deriving DecidableEq, Repr

/-- Read up to `fuel` leading digits, returning the accumulated value and
the rest. -/
def readDigitsAux : Nat → List Char → Nat → Nat × List Char
  | 0, cs, acc => (acc, cs)
  | fuel + 1, c :: cs, acc =>
    if c.isDigit then readDigitsAux fuel cs (10 * acc + (c.toNat - 48))
    else (acc, c :: cs)
  | _ + 1, [], acc => (acc, [])

/-- Read 1 to `maxDigits` digits (a `strptime` numeric directive). -/
def readNum (maxDigits : Nat) (cs : List Char) : Option (Nat × List Char) :=
  match cs with
  | c :: _ => if c.isDigit then some (readDigitsAux maxDigits cs 0) else none
  | [] => none

/-- Expect a literal character. -/
def expectChar (c : Char) (cs : List Char) : Option (List Char) :=
  match cs with
  | d :: rest => if d = c then some rest else none
  | [] => none

/-- The five numeric fields of `"%Y-%m-%d %H:%M"`, without range
validation. -/
def rawParseDT (s : String) : Option DT := do
  let (y, cs) ← readNum 4 s.data
  let cs ← expectChar '-' cs
  let (mo, cs) ← readNum 2 cs
  let cs ← expectChar '-' cs
  let (d, cs) ← readNum 2 cs
  let cs ← expectChar ' ' cs
  let (h, cs) ← readNum 2 cs
  let cs ← expectChar ':' cs
  let (mi, cs) ← readNum 2 cs
  if cs.isEmpty then some ⟨y, mo, d, h, mi⟩ else none

/-- Gregorian leap year test. -/
def isLeap (y : Nat) : Bool :=
  y % 4 = 0 && (y % 100 ≠ 0 || y % 400 = 0)

/-- Days in a month of a given year. -/
def daysInMonth (y m : Nat) : Nat :=
  if m = 2 then (if isLeap y then 29 else 28)
  else if m = 4 || m = 6 || m = 9 || m = 11 then 30
  else 31

/-- Range validation performed by the `datetime` constructor. -/
def checkDT (t : DT) : Bool :=
  1 ≤ t.year && t.year ≤ 9999 && 1 ≤ t.month && t.month ≤ 12 &&
    1 ≤ t.day && t.day ≤ daysInMonth t.year t.month && t.hour ≤ 23 && t.minute ≤ 59

/-- `datetime.strptime(s, "%Y-%m-%d %H:%M")`: `none` models the
`ValueError` that aborts the whole sort. -/
def parseDT? (s : String) : Option DT :=
  (rawParseDT s).bind (fun t => if checkDT t then some t else none)

/-- Chronological (lexicographic) order on parsed timestamps — the order in
which Python compares `datetime` values. -/
def DT.lexLe (a b : DT) : Prop :=
  a.year < b.year ∨ (a.year = b.year ∧ (a.month < b.month ∨ (a.month = b.month ∧
    (a.day < b.day ∨ (a.day = b.day ∧ (a.hour < b.hour ∨ (a.hour = b.hour ∧
      a.minute ≤ b.minute)))))))

/-- Numeric encoding of a timestamp; on validated timestamps it is a strictly
monotone image of `DT.lexLe`. -/
def DT.toKey (t : DT) : Nat :=
  t.minute + 100 * t.hour + 10000 * t.day + 1000000 * t.month + 100000000 * t.year

/-- Sort key of a record for the Date sort (`0` for an unparseable date:
the sort claim is only stated for lists whose dates all parse). -/
def dateKey (r : Record) : Nat :=
  match parseDT? r.date with
  | some t => t.toKey
  | none => 0

/-! ### Sorts (Python `list.sort` is stable; modelled by `mergeSort`) -/

/-- Sort Expenses branch, Date:
`expenses.sort(key=lambda x: datetime.strptime(x[0], "%Y-%m-%d %H:%M"))`. -/
def sortByDate (expenses : List Record) : List Record :=
  expenses.mergeSort (fun a b => decide (dateKey a ≤ dateKey b))

/-- Sort Expenses branch, Amount:
`expenses.sort(key=lambda x: float(x[1]))`. -/
def sortByAmount (expenses : List Record) : List Record :=
  expenses.mergeSort (fun a b => decide (a.amount ≤ b.amount))

/-! ### Total and per-category summary -/

/-- View Total branch: `total = sum(float(row[1]) for row in expenses)`. -/
def total (expenses : List Record) : ℚ :=
  (expenses.map (fun r => r.amount)).sum

/-- One `summary[row[2]] += float(row[1])` step on an association list that
models the `defaultdict(float)` (insertion order, first hit updated). -/
def addToSummary : List (String × ℚ) → String → ℚ → List (String × ℚ)
  | [], c, a => [(c, a)]
  | (c', v) :: rest, c, a =>
    if c' = c then (c', v + a) :: rest else (c', v) :: addToSummary rest c a

/-- Summary by Category branch: fold of `summary[row[2]] += float(row[1])`
over the records, starting from the empty `defaultdict(float)`. -/
def byCategory (expenses : List Record) : List (String × ℚ) :=
  expenses.foldl (fun s r => addToSummary s r.category r.amount) []

/-! ### Theorems -/

/-- Closed form of `financial_feedback` without a budget. -/
lemma feedback_none_eq (total : ℚ) :
    financial_feedback total none =
      if total = 0 then noExpensesMsg
      else if total < 1000 then lowSpendMsg
      else if total < 5000 then fairlyWellMsg
      else if total < 10000 then strictBudgetMsg
      else highSpendingMsg := by
  unfold financial_feedback
  by_cases h : total = 0 <;> simp [h]

/-- C1: with no budget supplied, `financial_feedback` returns the
"No expenses recorded" message exactly when `total = 0`; for
`0 < total < 1000` the low-spend praise; for `1000 ≤ total < 5000` the
"managing fairly well" caution; for `5000 ≤ total < 10000` the
"budgeting more strictly" warning; and for `total ≥ 10000` the
high-spending warning. -/
theorem C1_feedback_tiers (total : ℚ) :
    (financial_feedback total none = noExpensesMsg ↔ total = 0)
    ∧ (0 < total → total < 1000 → financial_feedback total none = lowSpendMsg)
    ∧ (1000 ≤ total → total < 5000 → financial_feedback total none = fairlyWellMsg)
    ∧ (5000 ≤ total → total < 10000 → financial_feedback total none = strictBudgetMsg)
    ∧ (10000 ≤ total → financial_feedback total none = highSpendingMsg) := by
  have e := feedback_none_eq total
  refine ⟨⟨fun h => ?_, fun h => by rw [e, if_pos h]⟩,
    fun ha hb => ?_, fun ha hb => ?_, fun ha hb => ?_, fun ha => ?_⟩
  · by_contra hne
    rw [e, if_neg hne] at h
    split_ifs at h <;> exact absurd h (by decide)
  · have h0 : ¬ total = 0 := by intro hh; rw [hh] at ha; linarith
    rw [e, if_neg h0, if_pos hb]
  · have h0 : ¬ total = 0 := by intro hh; rw [hh] at ha; linarith
    rw [e, if_neg h0, if_neg (by linarith), if_pos hb]
  · have h0 : ¬ total = 0 := by intro hh; rw [hh] at ha; linarith
    rw [e, if_neg h0, if_neg (by linarith), if_neg (by linarith), if_pos hb]
  · have h0 : ¬ total = 0 := by intro hh; rw [hh] at ha; linarith
    rw [e, if_neg h0, if_neg (by linarith), if_neg (by linarith), if_neg (by linarith)]

/-- Witness for C1: each tier evaluated at a concrete total. -/
theorem C1_feedback_tiers_witness :
    financial_feedback 500 none = lowSpendMsg
    ∧ financial_feedback 1300 none = fairlyWellMsg
    ∧ financial_feedback 7000 none = strictBudgetMsg
    ∧ financial_feedback 20000 none = highSpendingMsg :=
  ⟨(C1_feedback_tiers 500).2.1 (by norm_num) (by norm_num),
   (C1_feedback_tiers 1300).2.2.1 (by norm_num) (by norm_num),
   (C1_feedback_tiers 7000).2.2.2.1 (by norm_num) (by norm_num),
   (C1_feedback_tiers 20000).2.2.2.2 (by norm_num)⟩

/-- C2 counterexample: at `total = 0` with the nonzero budget `5`
(`total ≤ budget`), the source returns the no-expenses message untouched —
no "within your budget" clause is appended, contrary to the claim's
universal quantification over every total. -/
theorem C2_budget_counterexample :
    (5 : ℚ) ≠ 0 ∧ ¬ ((0 : ℚ) > 5)
    ∧ financial_feedback 0 (some 5) = financial_feedback 0 none
    ∧ financial_feedback 0 (some 5) ≠ financial_feedback 0 none ++ withinBudgetMsg 5 := by
  refine ⟨by norm_num, by norm_num, by decide, by decide⟩

/-- C2 (amended): a supplied budget of exactly `0` is treated as "not
supplied" (truthiness); and for `total ≠ 0` a nonzero budget appends the
"exceeded" clause exactly when `total > budget` and the "within" clause
otherwise; at `total = 0` the no-expenses message is returned with no budget
clause regardless of the budget. -/
theorem C2_budget_truthiness (total : ℚ) (budget : Option ℚ) :
    (financial_feedback total (some 0) = financial_feedback total none)
    ∧ (total = 0 → financial_feedback total budget = noExpensesMsg)
    ∧ (∀ b, budget = some b → b ≠ 0 → total ≠ 0 →
        financial_feedback total budget =
          financial_feedback total none ++
            (if total > b then exceededBudgetMsg b else withinBudgetMsg b)) := by
  refine ⟨?_, ?_, ?_⟩
  · unfold financial_feedback
    by_cases h : total = 0 <;> simp [h]
  · intro h
    unfold financial_feedback
    cases budget <;> simp [h]
  · intro b hb hbne htot
    subst hb
    simp only [financial_feedback]
    rw [if_neg htot, if_neg htot, if_pos hbne]
    split_ifs <;> rfl

/-- Witness for C2 (amended): the spec scenario `total = 1300`,
budget `1000` — the "exceeded" clause is appended. -/
theorem C2_budget_truthiness_witness :
    financial_feedback 1300 (some 1000) =
      financial_feedback 1300 none ++
        (if (1300 : ℚ) > 1000 then exceededBudgetMsg 1000 else withinBudgetMsg 1000) :=
  (C2_budget_truthiness 1300 (some 1000)).2.2 1000 rfl (by norm_num) (by norm_num)

/-- C3: the percent-of-salary block is skipped (no division attempted)
exactly when the session salary is absent or zero, in both the View Total
and the Financial Management Report branches; with a nonzero salary the
percentage is `total / salary * 100` and the over-70% warning is chosen
exactly when it exceeds 70. -/
theorem C3_salary_guard (salary : Option ℚ) (total : ℚ) :
    (viewTotalUsage salary total = none ↔ salary = none ∨ salary = some 0)
    ∧ (reportUsage salary total = none ↔ salary = none ∨ salary = some 0)
    ∧ (∀ s, salary = some s → s ≠ 0 →
        viewTotalUsage salary total =
          some (total / s * 100,
            if total / s * 100 > 70 then overSpendWarnTotal else safeRangeMsgTotal)
        ∧ reportUsage salary total =
          some (total / s * 100,
            if total / s * 100 > 70 then overSpendWarnReport else safeRangeMsgReport)) := by
  refine ⟨?_, ?_, ?_⟩
  · cases salary with
    | none => simp [viewTotalUsage]
    | some s => by_cases h : s = 0 <;> simp [viewTotalUsage, h]
  · cases salary with
    | none => simp [reportUsage]
    | some s => by_cases h : s = 0 <;> simp [reportUsage, h]
  · intro s hs hne
    subst hs
    exact ⟨by simp [viewTotalUsage, hne], by simp [reportUsage, hne]⟩

/-- Witness for C3: the spec scenario salary `2000`, total `1500` gives
`75%` and the warning clause in both branches. -/
theorem C3_salary_guard_witness :
    viewTotalUsage (some 2000) 1500 = some (75, overSpendWarnTotal)
    ∧ reportUsage (some 2000) 1500 = some (75, overSpendWarnReport) := by
  have h := (C3_salary_guard (some 2000) 1500).2.2 2000 rfl (by norm_num)
  constructor
  · rw [h.1, if_pos (by norm_num)]
    norm_num
  · rw [h.2, if_pos (by norm_num)]
    norm_num

/-- A string with a finite parsed value is accepted by `is_valid_amount`. -/
lemma is_valid_amount_of_fin {a : String} {q : ℚ} (hq : pyFloatFin? a = some q) :
    is_valid_amount a = true := by
  unfold pyFloatFin? at hq
  unfold is_valid_amount
  cases h : pyFloat? a with
  | none => rw [h] at hq; simp at hq
  | some v => simp [h]

/-- C4: editing position `i` with an amount that parses (to the finite value
`q`) writes back a store whose record at `i` has the new amount, category and
note but the original timestamp, leaves every other position untouched and
preserves the length; an amount rejected by `is_valid_amount` performs no
write and the store is unchanged. -/
theorem C4_edit (l : List Record) (i : Nat) (r : Record) (a c n : String) (q : ℚ)
    (hi : l[i]? = some r) (hq : pyFloatFin? a = some q) :
    (editExpense l i a c n).length = l.length
    ∧ (editExpense l i a c n)[i]? = some ⟨r.date, q, c, n⟩
    ∧ (∀ j, j ≠ i → (editExpense l i a c n)[j]? = l[j]?)
    ∧ (∀ a', is_valid_amount a' = false → editExpense l i a' c n = l) := by
  have hv : is_valid_amount a = true := is_valid_amount_of_fin hq
  have hlen : i < l.length := by
    by_contra h
    rw [List.getElem?_eq_none (by omega)] at hi
    cases hi
  have he : editExpense l i a c n = l.set i ⟨r.date, q, c, n⟩ := by
    simp [editExpense, hv, hi, hq]
  refine ⟨?_, ?_, ?_, ?_⟩
  · rw [he, List.length_set]
  · rw [he]
    exact List.getElem?_set_self hlen
  · intro j hj
    rw [he]
    exact List.getElem?_set_ne (Ne.symm hj)
  · intro a' ha'
    simp [editExpense, ha']

/-- Witness for C4: editing the single record of a one-record store with
amount `"12.5"`. -/
theorem C4_edit_witness :
    (editExpense [⟨"2024-01-05 10:00", 500, "Food", "x"⟩] 0 "12.5" "Transport" "n").length = 1
    ∧ (editExpense [⟨"2024-01-05 10:00", 500, "Food", "x"⟩] 0 "12.5" "Transport" "n")[0]? =
        some ⟨"2024-01-05 10:00", mkRat 25 2, "Transport", "n"⟩
    ∧ mkRat 25 2 = (25 : ℚ) / 2 :=
  ⟨(C4_edit [⟨"2024-01-05 10:00", 500, "Food", "x"⟩] 0 ⟨"2024-01-05 10:00", 500, "Food", "x"⟩
      "12.5" "Transport" "n" (mkRat 25 2) rfl (by decide)).1,
   (C4_edit [⟨"2024-01-05 10:00", 500, "Food", "x"⟩] 0 ⟨"2024-01-05 10:00", 500, "Food", "x"⟩
      "12.5" "Transport" "n" (mkRat 25 2) rfl (by decide)).2.1,
   by rw [Rat.mkRat_eq_divInt, Rat.divInt_eq_div]; norm_num⟩

/-- C5: deleting an in-range position `i` yields a store with exactly one
record fewer, equal to the original with position `i` removed: positions
below `i` are unchanged and positions from `i` on shift down by one, so all
remaining records keep their field values and relative order. -/
theorem C5_delete (l : List Record) (i : Nat) (hi : i < l.length) :
    (deleteExpense l i).length = l.length - 1
    ∧ deleteExpense l i = l.take i ++ l.drop (i + 1)
    ∧ (∀ j, j < i → (deleteExpense l i)[j]? = l[j]?)
    ∧ (∀ j, i ≤ j → (deleteExpense l i)[j]? = l[j + 1]?) :=
  ⟨List.length_eraseIdx_of_lt hi, List.eraseIdx_eq_take_drop_succ l i,
   fun j hj => List.getElem?_eraseIdx_of_lt l i j hj,
   fun j hj => List.getElem?_eraseIdx_of_ge l i j hj⟩

/-- Witness for C5: the spec scenario — deleting position 0 of a two-record
store leaves exactly the original position-1 record. -/
theorem C5_delete_witness :
    (deleteExpense [⟨"2024-01-05 10:00", 500, "Food", ""⟩,
        ⟨"2024-01-10 09:00", 800, "Transport", ""⟩] 0).length = 1
    ∧ deleteExpense [⟨"2024-01-05 10:00", 500, "Food", ""⟩,
        ⟨"2024-01-10 09:00", 800, "Transport", ""⟩] 0 =
        [⟨"2024-01-10 09:00", 800, "Transport", ""⟩] :=
  ⟨(C5_delete [⟨"2024-01-05 10:00", 500, "Food", ""⟩,
      ⟨"2024-01-10 09:00", 800, "Transport", ""⟩] 0 (by decide)).1,
   by
    have h := (C5_delete [⟨"2024-01-05 10:00", 500, "Food", ""⟩,
      ⟨"2024-01-10 09:00", 800, "Transport", ""⟩] 0 (by decide)).2.1
    simpa using h⟩

/-- C6 (code bug): `is_valid_amount` only tests that `float` succeeds, so the
negative amount `"-5"` is accepted and the edit path writes the negative
value `-5` into the store — contradicting the invariant that only finite
*non-negative* amounts may be written.  (The parts of the claim about
non-negative decimals being accepted and non-numeric strings rejected do
hold, as the last two conjuncts show.) -/
theorem C6_validator_accepts_negative :
    is_valid_amount "-5" = true
    ∧ editExpense [⟨"2024-01-05 10:00", 500, "Food", ""⟩] 0 "-5" "Groceries" "n" =
        [⟨"2024-01-05 10:00", mkRat (-5) 1, "Groceries", "n"⟩]
    ∧ mkRat (-5) 1 = (-5 : ℚ)
    ∧ ((-5 : ℚ) < 0)
    ∧ is_valid_amount "500" = true
    ∧ is_valid_amount "abc" = false := by
  refine ⟨by decide, by decide, ?_, by norm_num, by decide, by decide⟩
  rw [Rat.mkRat_eq_divInt, Rat.divInt_eq_div]
  norm_num

/-- One `+=` step adds exactly its amount to the grand total of the
summary. -/
lemma sumSnd_addToSummary (s : List (String × ℚ)) (c : String) (a : ℚ) :
    ((addToSummary s c a).map Prod.snd).sum = (s.map Prod.snd).sum + a := by
  induction s with
  | nil => simp [addToSummary]
  | cons hd tl ih =>
    obtain ⟨c₁, v⟩ := hd
    by_cases h : c₁ = c
    · simp only [addToSummary, if_pos h, List.map_cons, List.sum_cons]
      ring
    · simp only [addToSummary, if_neg h, List.map_cons, List.sum_cons, ih]
      ring

/-- One `+=` step adds its amount to the bucket of its exact category and
leaves every other bucket unchanged. -/
lemma lookup_addToSummary (s : List (String × ℚ)) (c : String) (a : ℚ) (c' : String) :
    ((addToSummary s c a).lookup c').getD 0 =
      ((s.lookup c').getD 0) + (if c' = c then a else 0) := by
  induction s with
  | nil =>
    by_cases h : c' = c
    · subst h
      simp [addToSummary, List.lookup]
    · have hb : (c' == c) = false := beq_eq_false_iff_ne.mpr h
      simp [addToSummary, List.lookup, hb, h]
  | cons hd tl ih =>
    obtain ⟨c₁, v⟩ := hd
    by_cases h1 : c₁ = c
    · subst h1
      by_cases h2 : c' = c₁
      · subst h2
        simp [addToSummary, List.lookup]
      · have hb : (c' == c₁) = false := beq_eq_false_iff_ne.mpr h2
        simp [addToSummary, List.lookup, hb, h2]
    · by_cases h2 : c' = c₁
      · subst h2
        simp [addToSummary, List.lookup, h1]
      · have hb : (c' == c₁) = false := beq_eq_false_iff_ne.mpr h2
        simp [addToSummary, List.lookup, h1, hb, ih]

/-- Invariant of the `summary[row[2]] += float(row[1])` fold, for an
arbitrary starting summary. -/
lemma byCategory_aux (l : List Record) (s : List (String × ℚ)) :
    (((l.foldl (fun acc r => addToSummary acc r.category r.amount) s).map Prod.snd).sum
        = (s.map Prod.snd).sum + total l)
    ∧ ∀ c, ((l.foldl (fun acc r => addToSummary acc r.category r.amount) s).lookup c).getD 0
        = ((s.lookup c).getD 0) + total (l.filter (fun r => decide (r.category = c))) := by
  induction l generalizing s with
  | nil => simp [total]
  | cons r tl ih =>
    constructor
    · have h := (ih (addToSummary s r.category r.amount)).1
      rw [List.foldl_cons, h, sumSnd_addToSummary]
      simp only [total, List.map_cons, List.sum_cons]
      ring
    · intro c
      have h := (ih (addToSummary s r.category r.amount)).2 c
      rw [List.foldl_cons, h, lookup_addToSummary]
      by_cases hc : r.category = c
      · rw [if_pos hc.symm]
        simp [List.filter_cons, hc, total]
        ring
      · rw [if_neg (fun hh => hc hh.symm)]
        simp [List.filter_cons, hc, total]

/-- C7: `byCategory` groups amounts by the exact (case-sensitive) category
string — each category's bucket is the total of the records whose category
is literally equal to it — and the buckets sum to `total`. -/
theorem C7_byCategory (l : List Record) :
    ((byCategory l).map Prod.snd).sum = total l
    ∧ ∀ c, ((byCategory l).lookup c).getD 0 =
        total (l.filter (fun r => decide (r.category = c))) := by
  have h := byCategory_aux l []
  exact ⟨by simpa [byCategory] using h.1, fun c => by simpa [byCategory] using h.2 c⟩

/-- C8: `filterByCategory` keeps exactly the records whose category matches
the key case-insensitively, and filtering twice with the same key is the
same as filtering once. -/
theorem C8_filterByCategory (l : List Record) (c : String) :
    (∀ r, r ∈ filterByCategory l c ↔ r ∈ l ∧ strLower r.category = strLower c)
    ∧ filterByCategory (filterByCategory l c) c = filterByCategory l c := by
  constructor
  · intro r
    simp [filterByCategory, List.mem_filter]
  · simp [filterByCategory, List.filter_filter]

/-- C10: the date filter with the empty search string keeps every record
(every timestamp starts with the empty string), so a blank date input
selects the whole store. -/
theorem C10_empty_date_filter (l : List Record) :
    filterByDate l "" = l := by
  unfold filterByDate
  exact List.filter_eq_self.mpr (fun r _ => rfl)

/-- A timestamp accepted by `parseDT?` passed the `datetime` range
validation. -/
lemma parseDT?_valid {s : String} {t : DT} (h : parseDT? s = some t) :
    checkDT t = true := by
  unfold parseDT? at h
  cases hr : rawParseDT s with
  | none => rw [hr] at h; simp at h
  | some t' =>
    rw [hr] at h
    by_cases hc : checkDT t' = true
    · simp [hc] at h
      exact h ▸ hc
    · simp [hc] at h

/-- Field bounds guaranteed by the `datetime` range validation. -/
lemma checkDT_bounds {t : DT} (h : checkDT t = true) :
    1 ≤ t.month ∧ t.month ≤ 12 ∧ 1 ≤ t.day ∧ t.day ≤ 31 ∧ t.hour ≤ 23 ∧ t.minute ≤ 59 := by
  unfold checkDT at h
  simp only [Bool.and_eq_true, decide_eq_true_eq] at h
  have hdm : daysInMonth t.year t.month ≤ 31 := by
    unfold daysInMonth
    split_ifs <;> omega
  omega

/-- On validated timestamps the numeric key realizes exactly the
chronological (lexicographic) order. -/
lemma toKey_le_iff {a b : DT} (ha : checkDT a = true) (hb : checkDT b = true) :
    a.toKey ≤ b.toKey ↔ a.lexLe b := by
  obtain ⟨am1, am2, ad1, ad2, ah, amin⟩ := checkDT_bounds ha
  obtain ⟨bm1, bm2, bd1, bd2, bh, bmin⟩ := checkDT_bounds hb
  unfold DT.toKey DT.lexLe
  omega

/-- The date sort key of a record with a parsed timestamp. -/
lemma dateKey_eq {r : Record} {t : DT} (h : parseDT? r.date = some t) :
    dateKey r = t.toKey := by
  unfold dateKey
  rw [h]

/-- Stability of `mergeSort` in filter form: the subsequence of elements
satisfying `p` is untouched by the sort whenever all `p`-elements are
mutually `le`-equivalent (e.g. `p` picks out one sort key). -/
lemma mergeSort_filter_stable {α : Type} (le : α → α → Bool) (p : α → Bool) (l : List α)
    (htrans : ∀ a b c : α, le a b → le b c → le a c)
    (htotal : ∀ a b : α, le a b || le b a)
    (hp : ∀ a b : α, p a = true → p b = true → le a b = true) :
    (l.mergeSort le).filter p = l.filter p := by
  have hc : (l.filter p).Pairwise (fun a b => le a b = true) :=
    List.pairwise_of_forall_mem_list (fun a ha b hb =>
      hp a b (List.of_mem_filter ha) (List.of_mem_filter hb))
  have hsub : List.Sublist (l.filter p) (l.mergeSort le) :=
    List.sublist_mergeSort htrans htotal hc (List.filter_sublist l)
  have hsub2 : List.Sublist (l.filter p) ((l.mergeSort le).filter p) := by
    have h2 := hsub.filter p
    have h3 : (l.filter p).filter p = l.filter p := by
      simp [List.filter_filter]
    rwa [h3] at h2
  have hperm : ((l.mergeSort le).filter p).Perm (l.filter p) :=
    (List.mergeSort_perm l le).filter p
  exact (hsub2.eq_of_length hperm.length_eq.symm).symm

/-- C9: on a record list whose timestamps all parse, the Date sort is a
permutation of the input that is non-decreasing in the chronological order
of the parsed timestamps, the Amount sort is a permutation that is
non-decreasing in the numeric amount, and both sorts are stable: records
sharing a sort key keep their original relative order. -/
theorem C9_sorts (l : List Record)
    (_hp : ∀ r ∈ l, (parseDT? r.date).isSome) :
    (sortByDate l).Perm l
    ∧ (sortByDate l).Pairwise (fun a b => ∀ ta tb, parseDT? a.date = some ta →
        parseDT? b.date = some tb → ta.lexLe tb)
    ∧ (∀ t : DT, (sortByDate l).filter (fun r => decide (parseDT? r.date = some t)) =
        l.filter (fun r => decide (parseDT? r.date = some t)))
    ∧ (sortByAmount l).Perm l
    ∧ (sortByAmount l).Pairwise (fun a b => a.amount ≤ b.amount)
    ∧ (∀ q : ℚ, (sortByAmount l).filter (fun r => decide (r.amount = q)) =
        l.filter (fun r => decide (r.amount = q))) := by
  have dtrans : ∀ a b c : Record, decide (dateKey a ≤ dateKey b) →
      decide (dateKey b ≤ dateKey c) → (decide (dateKey a ≤ dateKey c) : Bool) := by
    intro a b c hab hbc
    simp only [decide_eq_true_eq] at *
    omega
  have dtotal : ∀ a b : Record,
      (decide (dateKey a ≤ dateKey b) || decide (dateKey b ≤ dateKey a) : Bool) := by
    intro a b
    simp only [Bool.or_eq_true, decide_eq_true_eq]
    omega
  have atrans : ∀ a b c : Record, decide (a.amount ≤ b.amount) →
      decide (b.amount ≤ c.amount) → (decide (a.amount ≤ c.amount) : Bool) := by
    intro a b c hab hbc
    simp only [decide_eq_true_eq] at *
    exact le_trans hab hbc
  have atotal : ∀ a b : Record,
      (decide (a.amount ≤ b.amount) || decide (b.amount ≤ a.amount) : Bool) := by
    intro a b
    simp only [Bool.or_eq_true, decide_eq_true_eq]
    exact le_total a.amount b.amount
  refine ⟨List.mergeSort_perm l _, ?_, ?_, List.mergeSort_perm l _, ?_, ?_⟩
  · refine (List.sorted_mergeSort dtrans dtotal l).imp ?_
    intro a b hle ta tb hta htb
    have hab : dateKey a ≤ dateKey b := by simpa using hle
    rw [dateKey_eq hta, dateKey_eq htb] at hab
    exact (toKey_le_iff (parseDT?_valid hta) (parseDT?_valid htb)).mp hab
  · intro t
    refine mergeSort_filter_stable _ _ l dtrans dtotal ?_
    intro a b ha hb
    simp only [decide_eq_true_eq] at ha hb
    simp [dateKey_eq ha, dateKey_eq hb]
  · refine (List.sorted_mergeSort atrans atotal l).imp ?_
    intro a b hle
    simpa using hle
  · intro q
    refine mergeSort_filter_stable _ _ l atrans atotal ?_
    intro a b ha hb
    simp only [decide_eq_true_eq] at ha hb
    simp [ha, hb]

/-- Witness for C9: a concrete two-record store whose timestamps parse. -/
theorem C9_sorts_witness :
    (sortByDate [⟨"2024-01-10 09:00", 800, "Transport", ""⟩,
        ⟨"2024-01-05 10:00", 500, "Food", ""⟩]).Perm
      [⟨"2024-01-10 09:00", 800, "Transport", ""⟩, ⟨"2024-01-05 10:00", 500, "Food", ""⟩]
    ∧ (sortByAmount [⟨"2024-01-10 09:00", 800, "Transport", ""⟩,
        ⟨"2024-01-05 10:00", 500, "Food", ""⟩]).Pairwise (fun a b => a.amount ≤ b.amount) :=
  ⟨(C9_sorts [⟨"2024-01-10 09:00", 800, "Transport", ""⟩,
      ⟨"2024-01-05 10:00", 500, "Food", ""⟩] (by decide)).1,
   (C9_sorts [⟨"2024-01-10 09:00", 800, "Transport", ""⟩,
      ⟨"2024-01-05 10:00", 500, "Food", ""⟩] (by decide)).2.2.2.2.1⟩

end ExpenseTracker
